import Mathlib

/-!
Verification of the simulation engine embedded in
`src/components/NeuronSimulator.tsx` (a React component).

The component's state variables (`useState`) and the mutable ref
`lastSpikeTimeRef` are collected in one record `SimState`.  The refs
`membranePotentialRef` / `thresholdRef` are synchronised with the state
variables by `useEffect` hooks, which run only after a commit; hence at
the start of each externally triggered call they equal the committed
`membranePotential` / `threshold`, and during a call they still hold the
values from before the call.  They are therefore not separate fields:
wherever the source reads `membranePotentialRef.current` or
`thresholdRef.current` mid-update, the embedding reads the pre-call
field value.

`isRefractory` is a `useMemo` with dependency list `[time]`: it is
recomputed only at a render where `time` changed.  It is modelled as an
explicit field, recomputed exactly when an operation changes `time`.
-/

namespace NeuronSim

/-- `refractoryPeriod = 5` from the source. -/
def refractoryPeriod : ℕ := 5

/-- `timeStep = 1` from the source. -/
def timeStep : ℕ := 1

/-- `MAX_SPIKES_DISPLAY = 20` from the source. -/
def MAX_SPIKES_DISPLAY : ℕ := 20

/-- `MAX_DATA_POINTS = 1000` from the source. -/
def MAX_DATA_POINTS : ℕ := 1000

/-- One entry of the `dataPoints` series: `{ time, potential, threshold }`. -/
structure Sample where
  time : ℕ
  potential : ℚ
  threshold : ℚ
deriving DecidableEq

/-- The component state: every `useState` variable of the component that
the engine reads or writes, plus the mutable ref `lastSpikeTimeRef` and
the memoised `isRefractory` flag (recomputed only when `time` changes). -/
structure SimState where
  membranePotential : ℚ
  threshold : ℚ
  time : ℕ
  dataPoints : List Sample
  spikeCount : ℕ
  spikeTimes : List ℕ
  isRunning : Bool
  decayRate : ℚ
  thresholdDecayRate : ℚ
  minThreshold : ℚ
  spikeMagnitude : ℚ
  lastSpikeTime : Option ℕ
  isRefractory : Bool
deriving DecidableEq

/-- The initial state of the component (the `useState` initial values;
`lastSpikeTimeRef` starts at `null`; the initial render computes
`isRefractory = false`). -/
def initState : SimState where
  membranePotential := 0
  threshold := 1
  time := 0
  dataPoints := []
  spikeCount := 0
  spikeTimes := []
  isRunning := true
  decayRate := 1/100
  thresholdDecayRate := 1/100
  minThreshold := 1
  spikeMagnitude := 1/2
  lastSpikeTime := none
  isRefractory := false

/-- The refractory predicate as the source computes it afresh:
`lastSpikeTime !== null && time - lastSpikeTime < refractoryPeriod`
(the `null` case yields `Infinity < refractoryPeriod`, i.e. `false`,
in `simulationLoop`, and `false` directly in the `useMemo`). -/
def freshIsRefractory (time : ℕ) (lastSpikeTime : Option ℕ) : Bool :=
  match lastSpikeTime with
  | none => false
  | some t => decide ((time : ℤ) - (t : ℤ) < (refractoryPeriod : ℤ))

/-- The `spikeTimes` update of both spike handlers: push the spike time,
then `shift()` (drop the head) when the length exceeds
`MAX_SPIKES_DISPLAY`. -/
def pushSpikeTime (ts : List ℕ) (t : ℕ) : List ℕ :=
  let updatedSpikeTimes := ts ++ [t]
  if updatedSpikeTimes.length > MAX_SPIKES_DISPLAY then
    updatedSpikeTimes.tail
  else
    updatedSpikeTimes

/-- JavaScript `arr.slice(-n)` for `n > 0`: the last `min n arr.length`
elements. -/
def sliceLast (xs : List α) (n : ℕ) : List α :=
  xs.drop (xs.length - n)

/-- `sendSpike`: guarded by the memoised `isRefractory`; adds
`spikeMagnitude` to the potential; compares against
`thresholdRef.current`, which at the start of the handler equals
`threshold`; on a spike sets `lastSpikeTimeRef`, bumps `threshold` by
`0.1`, bumps `spikeCount`, pushes the spike time, and resets the
potential to `0`; otherwise stores the accumulated potential.
`time` is not changed, so the memoised flag is not recomputed. -/
def sendSpike (s : SimState) : SimState :=
  if s.isRefractory then s
  else
    let newPotential := s.membranePotential + s.spikeMagnitude
    if newPotential ≥ s.threshold then
      { s with
        membranePotential := 0
        threshold := s.threshold + 1/10
        spikeCount := s.spikeCount + 1
        spikeTimes := pushSpikeTime s.spikeTimes s.time
        lastSpikeTime := some s.time }
    else
      { s with membranePotential := newPotential }

/-- `handleCustomSpikeInput`, after its `!isNaN` guard has passed with a
finite parsed magnitude: identical to the spike branch of `sendSpike`
except that there is no refractory guard at all. -/
def handleCustomSpikeInput (customMagnitude : ℚ) (s : SimState) : SimState :=
  let newPotential := s.membranePotential + customMagnitude
  if newPotential ≥ s.threshold then
    { s with
      membranePotential := 0
      threshold := s.threshold + 1/10
      spikeCount := s.spikeCount + 1
      spikeTimes := pushSpikeTime s.spikeTimes s.time
      lastSpikeTime := some s.time }
  else
    { s with membranePotential := newPotential }

/-- `simulationLoop` (one tick): early-returns when not running;
increments `time`; computes the refractory status against the new time
afresh; relaxes `threshold` toward `minThreshold` when not refractory;
decays the potential unconditionally, clamped at `0`; appends
`{ time: newTime, potential: membranePotentialRef.current,
threshold: thresholdRef.current }` to `dataPoints` — the refs are
synchronised only by `useEffect` after the commit, so they still hold
the potential and threshold from before this tick — and keeps the last
`MAX_DATA_POINTS` entries (`slice(-MAX_DATA_POINTS)`).  The `time`
change makes the `useMemo` recompute `isRefractory` at the next render,
reading the unchanged `lastSpikeTimeRef`. -/
def simulationLoop (s : SimState) : SimState :=
  if ! s.isRunning then s
  else
    let newTime := s.time + timeStep
    let currentlyRefractory := freshIsRefractory newTime s.lastSpikeTime
    let newThreshold :=
      if currentlyRefractory then s.threshold
      else max s.minThreshold (s.threshold - s.thresholdDecayRate)
    let decayedPotential := max 0 (s.membranePotential - s.decayRate * (timeStep : ℚ))
    let newData := sliceLast (s.dataPoints ++ [⟨newTime, s.membranePotential, s.threshold⟩]) MAX_DATA_POINTS
    { s with
      time := newTime
      threshold := newThreshold
      membranePotential := decayedPotential
      dataPoints := newData
      isRefractory := currentlyRefractory }

/-- `resetSimulation`: restores the seven engine fields and nulls
`lastSpikeTimeRef`; the configuration sliders and `isRunning` are not
touched.  When `time` changes (to `0`) the memo recomputes against the
nulled ref, giving `false`; when `time` was already `0` the cached flag
is kept (`useMemo` compares its dependency with the old value). -/
def resetSimulation (s : SimState) : SimState :=
  { s with
    membranePotential := 0
    threshold := 1
    time := 0
    dataPoints := []
    spikeCount := 0
    spikeTimes := []
    lastSpikeTime := none
    isRefractory := if s.time = 0 then s.isRefractory else freshIsRefractory 0 none }

/-- The externally triggered operations on the component: the two spike
handlers, one tick of the animation loop, reset, and the configuration
setters (sliders and the pause/resume button), each of which only
re-renders without changing `time`. -/
inductive Op where
  | tick
  | sendSpike
  | customStimulate (m : ℚ)
  | reset
  | setDecayRate (v : ℚ)
  | setThresholdDecayRate (v : ℚ)
  | setMinThreshold (v : ℚ)
  | setSpikeMagnitude (v : ℚ)
  | setRunning (b : Bool)
deriving DecidableEq

/-- One sequential, fully committed call. -/
def step (op : Op) (s : SimState) : SimState :=
  match op with
  | .tick => simulationLoop s
  | .sendSpike => sendSpike s
  | .customStimulate m => handleCustomSpikeInput m s
  | .reset => resetSimulation s
  | .setDecayRate v => { s with decayRate := v }
  | .setThresholdDecayRate v => { s with thresholdDecayRate := v }
  | .setMinThreshold v => { s with minThreshold := v }
  | .setSpikeMagnitude v => { s with spikeMagnitude := v }
  | .setRunning b => { s with isRunning := b }

/-- A sequence of calls, strictly sequential as the source's
single-threaded driver issues them. -/
def run (s : SimState) (ops : List Op) : SimState :=
  ops.foldl (fun s op => step op s) s

/-!
JavaScript numbers, as far as `handleCustomSpikeInput`'s input guard is
concerned.  The handler starts with
`const customMagnitude = parseFloat(customSpikeInput)` and guards the
whole update with `if (!isNaN(customMagnitude))`.  `parseFloat` may
yield a finite value, `NaN` (unparseable text), or `±Infinity` (texts
such as `Infinity`, `-Infinity` or `1e999`).  Only the `NaN` case is
filtered out.
-/

/-- A JavaScript number as relevant to the custom-spike handler: `NaN`,
`Infinity`, `-Infinity`, or a finite value. -/
inductive JSNum where
  | nan
  | posInf
  | negInf
  | num (q : ℚ)
deriving DecidableEq

/-- JavaScript `isNaN` on an already-converted number. -/
def jsIsNaN : JSNum → Bool
  | .nan => true
  | _ => false

/-- JavaScript `Number.isFinite`. -/
def JSNum.isFinite : JSNum → Bool
  | .num _ => true
  | _ => false

/-- JavaScript addition, restricted to the special values above. -/
def jsAdd : JSNum → JSNum → JSNum
  | .nan, _ => .nan
  | _, .nan => .nan
  | .posInf, .negInf => .nan
  | .negInf, .posInf => .nan
  | .posInf, _ => .posInf
  | _, .posInf => .posInf
  | .negInf, _ => .negInf
  | _, .negInf => .negInf
  | .num a, .num b => .num (a + b)

/-- JavaScript `>=` on numbers (`false` whenever either side is `NaN`). -/
def jsGe : JSNum → JSNum → Bool
  | .nan, _ => false
  | _, .nan => false
  | .posInf, _ => true
  | _, .posInf => false
  | .negInf, .negInf => true
  | .negInf, _ => false
  | _, .negInf => true
  | .num a, .num b => decide (a ≥ b)

/-- The engine fields `handleCustomSpikeInput` can read or write, with
the membrane potential in the full JavaScript number domain (a
non-finite parsed magnitude can drive it out of the rationals). -/
structure JSState where
  membranePotential : JSNum
  threshold : ℚ
  time : ℕ
  dataPoints : List Sample
  spikeCount : ℕ
  spikeTimes : List ℕ
  lastSpikeTime : Option ℕ
deriving DecidableEq

/-- The engine fields of a state, viewed in the JavaScript number
domain. -/
def SimState.toJS (s : SimState) : JSState where
  membranePotential := .num s.membranePotential
  threshold := s.threshold
  time := s.time
  dataPoints := s.dataPoints
  spikeCount := s.spikeCount
  spikeTimes := s.spikeTimes
  lastSpikeTime := s.lastSpikeTime

/-- `handleCustomSpikeInput` including its input guard, as a function of
the value `parseFloat` produced for the submitted text: if the parsed
magnitude is not `NaN`, the stimulus is applied (in JavaScript number
arithmetic); otherwise nothing runs and the engine state is
untouched. -/
def handleCustomSpikeParsed (parsed : JSNum) (s : SimState) : JSState :=
  if ! jsIsNaN parsed then
    let newPotential := jsAdd (.num s.membranePotential) parsed
    if jsGe newPotential (.num s.threshold) then
      { membranePotential := .num 0
        threshold := s.threshold + 1/10
        time := s.time
        dataPoints := s.dataPoints
        spikeCount := s.spikeCount + 1
        spikeTimes := pushSpikeTime s.spikeTimes s.time
        lastSpikeTime := some s.time }
    else
      { s.toJS with membranePotential := newPotential }
  else s.toJS

/-- Calls whose magnitude arguments are nonnegative: nonnegative custom
magnitudes and nonnegative values for the spike-magnitude slider. -/
def nonnegOp : Op → Bool
  | .customStimulate m => decide (0 ≤ m)
  | .setSpikeMagnitude v => decide (0 ≤ v)
  | _ => true

/-- Calls that cannot break the floor invariant at the given state:
every tick, stimulate, pause/resume and rate/magnitude setter, plus any
`minThreshold` change that does not raise the floor (reset rewrites
`threshold` from scratch and is excluded). -/
def floorSafeOp (op : Op) (s : SimState) : Bool :=
  match op with
  | .reset => false
  | .setMinThreshold v => decide (v ≤ s.minThreshold)
  | _ => true

/-- A call sequence along which every call is floor-safe at the state it
actually encounters. -/
def FloorSafe : SimState → List Op → Bool
  | _, [] => true
  | s, op :: ops => floorSafeOp op s && FloorSafe (step op s) ops

/-- The spike times a call appends to `spikeTimes` (at most one),
mirroring the spike branches of the two handlers. -/
def spikeOf (op : Op) (s : SimState) : List ℕ :=
  match op with
  | .sendSpike =>
      if s.isRefractory then []
      else if s.membranePotential + s.spikeMagnitude ≥ s.threshold then [s.time] else []
  | .customStimulate m =>
      if s.membranePotential + m ≥ s.threshold then [s.time] else []
  | _ => []

/-- The samples a call appends to `dataPoints` (at most one), mirroring
`simulationLoop`. -/
def sampleOf (op : Op) (s : SimState) : List Sample :=
  match op with
  | .tick => if s.isRunning then [⟨s.time + timeStep, s.membranePotential, s.threshold⟩] else []
  | _ => []

/-- One call, paired with ghost logs of every spike time and every
sample recorded since the last reset. -/
def stepHist (p : SimState × List ℕ × List Sample) (op : Op) : SimState × List ℕ × List Sample :=
  match op with
  | .reset => (resetSimulation p.1, [], [])
  | _ => (step op p.1, p.2.1 ++ spikeOf op p.1, p.2.2 ++ sampleOf op p.1)

/-- A sequence of calls from the initial state, with the ghost logs. -/
def runHist (ops : List Op) : SimState × List ℕ × List Sample :=
  ops.foldl stepHist (initState, [], [])

/-- The buffers hold exactly the most recent entries of the ghost logs,
and the spike log is chronological and bounded by the current time. -/
def HistInv (p : SimState × List ℕ × List Sample) : Prop :=
  p.1.spikeTimes = sliceLast p.2.1 MAX_SPIKES_DISPLAY ∧
  p.1.dataPoints = sliceLast p.2.2 MAX_DATA_POINTS ∧
  List.Pairwise (· ≤ ·) p.2.1 ∧
  ∀ x ∈ p.2.1, x ≤ p.1.time

theorem run_nil (s : SimState) : run s [] = s := rfl

theorem run_cons (s : SimState) (op : Op) (ops : List Op) :
    run s (op :: ops) = run (step op s) ops := rfl

theorem sliceLast_length_le (xs : List α) (n : ℕ) : (sliceLast xs n).length ≤ n := by
  simp only [sliceLast, List.length_drop]
  omega

theorem sliceLast_nil (n : ℕ) : sliceLast ([] : List α) n = [] := by
  simp [sliceLast]

theorem sliceLast_append_sliceLast (H : List α) (t : α) (n : ℕ) :
    sliceLast (sliceLast H n ++ [t]) n = sliceLast (H ++ [t]) n := by
  unfold sliceLast
  rcases le_or_lt H.length n with h | h
  · have h0 : H.length - n = 0 := Nat.sub_eq_zero_of_le h
    rw [h0, List.drop_zero]
  · rcases Nat.eq_zero_or_pos n with hn | hn
    · subst hn
      simp
  -- here 0 < n < H.length
    · have hlen : (H.drop (H.length - n)).length = n := by
        rw [List.length_drop]
        omega
      have hidx : (H.drop (H.length - n) ++ [t]).length - n = 1 := by
        rw [List.length_append, hlen]
        simp
      rw [hidx]
      rw [List.drop_append_of_le_length (by rw [hlen]; omega : 1 ≤ (H.drop (H.length - n)).length)]
      rw [List.drop_drop]
      have hidx2 : (H ++ [t]).length - n = H.length - n + 1 := by
        rw [List.length_append]
        simp
        omega
      rw [hidx2]
      rw [List.drop_append_of_le_length (by omega : H.length - n + 1 ≤ H.length)]

theorem pushSpikeTime_eq_sliceLast (ts : List ℕ) (t : ℕ) (h : ts.length ≤ MAX_SPIKES_DISPLAY) :
    pushSpikeTime ts t = sliceLast (ts ++ [t]) MAX_SPIKES_DISPLAY := by
  unfold pushSpikeTime sliceLast
  by_cases hlen : (ts ++ [t]).length > MAX_SPIKES_DISPLAY
  · rw [if_pos hlen, ← List.drop_one]
    congr 1
    rw [List.length_append] at hlen ⊢
    simp only [List.length_cons, List.length_nil] at hlen ⊢
    omega
  · rw [if_neg hlen]
    have h0 : (ts ++ [t]).length - MAX_SPIKES_DISPLAY = 0 := by omega
    rw [h0, List.drop_zero]

theorem pairwise_append_last {l : List ℕ} {a : ℕ} (h : List.Pairwise (· ≤ ·) l)
    (hb : ∀ x ∈ l, x ≤ a) : List.Pairwise (· ≤ ·) (l ++ [a]) :=
  List.pairwise_append.mpr ⟨h, List.pairwise_singleton _ _, by
    intro x hx y hy
    rw [List.mem_singleton] at hy
    subst hy
    exact hb x hx⟩

theorem pairwise_sliceLast {l : List ℕ} (n : ℕ) (h : List.Pairwise (· ≤ ·) l) :
    List.Pairwise (· ≤ ·) (sliceLast l n) :=
  h.sublist (List.drop_sublist _ _)

theorem stepHist_fst (p : SimState × List ℕ × List Sample) (op : Op) :
    (stepHist p op).1 = step op p.1 := by
  cases op <;> rfl

theorem foldl_stepHist_fst (ops : List Op) :
    ∀ p : SimState × List ℕ × List Sample, (ops.foldl stepHist p).1 = run p.1 ops := by
  induction ops with
  | nil => intro p; rfl
  | cons op ops ih =>
      intro p
      rw [List.foldl_cons, run_cons, ih, stepHist_fst]

theorem runHist_fst (ops : List Op) : (runHist ops).1 = run initState ops :=
  foldl_stepHist_fst ops _

theorem histInv_stepHist (p : SimState × List ℕ × List Sample) (op : Op)
    (h : HistInv p) : HistInv (stepHist p op) := by
  obtain ⟨s, H, D⟩ := p
  obtain ⟨h1, h2, h3, h4⟩ := h
  dsimp only at h1 h2 h3 h4
  have hlen20 : s.spikeTimes.length ≤ MAX_SPIKES_DISPLAY := by
    rw [h1]
    exact sliceLast_length_le _ _
  cases op with
  | tick =>
      by_cases hr : s.isRunning
      · refine ⟨?_, ?_, ?_, ?_⟩
        · simpa [stepHist, step, simulationLoop, hr, spikeOf] using h1
        · simp [stepHist, step, simulationLoop, hr, sampleOf]
          rw [h2, sliceLast_append_sliceLast]
        · simpa [stepHist, spikeOf] using h3
        · simp [stepHist, step, simulationLoop, hr, spikeOf]
          intro x hx
          have hb := h4 x hx
          omega
      · simp only [Bool.not_eq_true] at hr
        refine ⟨?_, ?_, ?_, ?_⟩
        · simpa [stepHist, step, simulationLoop, hr, spikeOf] using h1
        · simpa [stepHist, step, simulationLoop, hr, sampleOf] using h2
        · simpa [stepHist, spikeOf] using h3
        · simpa [stepHist, step, simulationLoop, hr, spikeOf] using h4
  | sendSpike =>
      by_cases hrf : s.isRefractory
      · refine ⟨?_, ?_, ?_, ?_⟩
        · simpa [stepHist, step, sendSpike, hrf, spikeOf] using h1
        · simpa [stepHist, step, sendSpike, hrf, sampleOf] using h2
        · simpa [stepHist, spikeOf, hrf] using h3
        · simpa [stepHist, step, sendSpike, hrf, spikeOf] using h4
      · by_cases hge : s.membranePotential + s.spikeMagnitude ≥ s.threshold
        · refine ⟨?_, ?_, ?_, ?_⟩
          · simp [stepHist, step, sendSpike, hrf, hge, spikeOf]
            rw [pushSpikeTime_eq_sliceLast _ _ hlen20, h1, sliceLast_append_sliceLast]
          · simpa [stepHist, step, sendSpike, hrf, hge, sampleOf] using h2
          · simp [stepHist, spikeOf, hrf, hge]
            exact pairwise_append_last h3 h4
          · simp [stepHist, step, sendSpike, hrf, hge, spikeOf]
            intro x hx
            rcases hx with hx | hx
            · exact h4 x hx
            · omega
        · refine ⟨?_, ?_, ?_, ?_⟩
          · simpa [stepHist, step, sendSpike, hrf, hge, spikeOf] using h1
          · simpa [stepHist, step, sendSpike, hrf, hge, sampleOf] using h2
          · simpa [stepHist, spikeOf, hrf, hge] using h3
          · simpa [stepHist, step, sendSpike, hrf, hge, spikeOf] using h4
  | customStimulate m =>
      by_cases hge : s.membranePotential + m ≥ s.threshold
      · refine ⟨?_, ?_, ?_, ?_⟩
        · simp [stepHist, step, handleCustomSpikeInput, hge, spikeOf]
          rw [pushSpikeTime_eq_sliceLast _ _ hlen20, h1, sliceLast_append_sliceLast]
        · simpa [stepHist, step, handleCustomSpikeInput, hge, sampleOf] using h2
        · simp [stepHist, spikeOf, hge]
          exact pairwise_append_last h3 h4
        · simp [stepHist, step, handleCustomSpikeInput, hge, spikeOf]
          intro x hx
          rcases hx with hx | hx
          · exact h4 x hx
          · omega
      · refine ⟨?_, ?_, ?_, ?_⟩
        · simpa [stepHist, step, handleCustomSpikeInput, hge, spikeOf] using h1
        · simpa [stepHist, step, handleCustomSpikeInput, hge, sampleOf] using h2
        · simpa [stepHist, spikeOf, hge] using h3
        · simpa [stepHist, step, handleCustomSpikeInput, hge, spikeOf] using h4
  | reset =>
      refine ⟨?_, ?_, ?_, ?_⟩
      · simp [stepHist, resetSimulation, sliceLast_nil]
      · simp [stepHist, resetSimulation, sliceLast_nil]
      · simp [stepHist]
      · simp [stepHist]
  | setDecayRate v =>
      exact ⟨by simpa [stepHist, step, spikeOf] using h1, by simpa [stepHist, step, sampleOf] using h2,
        by simpa [stepHist, spikeOf] using h3, by simpa [stepHist, step, spikeOf] using h4⟩
  | setThresholdDecayRate v =>
      exact ⟨by simpa [stepHist, step, spikeOf] using h1, by simpa [stepHist, step, sampleOf] using h2,
        by simpa [stepHist, spikeOf] using h3, by simpa [stepHist, step, spikeOf] using h4⟩
  | setMinThreshold v =>
      exact ⟨by simpa [stepHist, step, spikeOf] using h1, by simpa [stepHist, step, sampleOf] using h2,
        by simpa [stepHist, spikeOf] using h3, by simpa [stepHist, step, spikeOf] using h4⟩
  | setSpikeMagnitude v =>
      exact ⟨by simpa [stepHist, step, spikeOf] using h1, by simpa [stepHist, step, sampleOf] using h2,
        by simpa [stepHist, spikeOf] using h3, by simpa [stepHist, step, spikeOf] using h4⟩
  | setRunning b =>
      exact ⟨by simpa [stepHist, step, spikeOf] using h1, by simpa [stepHist, step, sampleOf] using h2,
        by simpa [stepHist, spikeOf] using h3, by simpa [stepHist, step, spikeOf] using h4⟩

theorem histInv_runHist (ops : List Op) : HistInv (runHist ops) := by
  have hinit : HistInv (initState, [], []) := by
    refine ⟨?_, ?_, ?_, ?_⟩
    · simp [initState, sliceLast_nil]
    · simp [initState, sliceLast_nil]
    · simp
    · simp
  unfold runHist
  generalize (initState, ([] : List ℕ), ([] : List Sample)) = p at hinit ⊢
  induction ops generalizing p with
  | nil => exact hinit
  | cons op ops ih =>
      rw [List.foldl_cons]
      exact ih _ (histInv_stepHist _ _ hinit)

/-- C6 (amended): the custom-spike handler filters exactly the `NaN`
parse results: when the parsed magnitude is `NaN`, `stimulate` is never
applied and every engine field is left unchanged.  (The claim's wider
guarantee for every non-finite parse result fails — see the
counterexample with `Infinity`.) -/
theorem C6_nan_input_noop (s : SimState) :
    handleCustomSpikeParsed JSNum.nan s = s.toJS := rfl

/-- C6 counterexample: the input text `Infinity` parses to a value that
is not a finite real number, yet the stimulus is applied: the guard
tests only `isNaN`, which `Infinity` passes, and the call fires a spike
and changes the state. -/
theorem C6_counterexample :
    JSNum.isFinite JSNum.posInf = false ∧
    handleCustomSpikeParsed JSNum.posInf initState ≠ initState.toJS := by
  refine ⟨rfl, ?_⟩
  simp [handleCustomSpikeParsed, jsIsNaN, jsAdd, jsGe, initState, SimState.toJS,
    pushSpikeTime, JSState.mk.injEq]

/-- C7: after every sequence of calls, `spikeTimes` holds at most
`MAX_SPIKES_DISPLAY = 20` entries and `dataPoints` at most
`MAX_DATA_POINTS = 1000`; each buffer equals exactly the most recent
suffix of the full chronological log of spike times (respectively
samples) recorded since the last reset, the retained spike times are in
chronological order, and the instrumented semantics agrees with the
plain one. -/
theorem C7_buffer_caps (ops : List Op) :
    (runHist ops).1.spikeTimes.length ≤ MAX_SPIKES_DISPLAY ∧
    (runHist ops).1.dataPoints.length ≤ MAX_DATA_POINTS ∧
    (runHist ops).1.spikeTimes = sliceLast (runHist ops).2.1 MAX_SPIKES_DISPLAY ∧
    (runHist ops).1.dataPoints = sliceLast (runHist ops).2.2 MAX_DATA_POINTS ∧
    List.Pairwise (· ≤ ·) (runHist ops).1.spikeTimes ∧
    (runHist ops).1 = run initState ops := by
  obtain ⟨h1, h2, h3, h4⟩ := histInv_runHist ops
  refine ⟨?_, ?_, h1, h2, ?_, runHist_fst ops⟩
  · rw [h1]
    exact sliceLast_length_le _ _
  · rw [h2]
    exact sliceLast_length_le _ _
  · rw [h1]
    exact pairwise_sliceLast _ h3

/-- C8: a single `resetSimulation` after any sequence of operations
restores exactly the initial engine state: potential 0, threshold 1.0,
time 0, empty sample buffer, zero spike count, empty spike log, and no
last spike time. -/
theorem C8_reset_restores_initial (ops : List Op) :
    (resetSimulation (run initState ops)).membranePotential = initState.membranePotential ∧
    (resetSimulation (run initState ops)).threshold = initState.threshold ∧
    (resetSimulation (run initState ops)).time = initState.time ∧
    (resetSimulation (run initState ops)).dataPoints = initState.dataPoints ∧
    (resetSimulation (run initState ops)).spikeCount = initState.spikeCount ∧
    (resetSimulation (run initState ops)).spikeTimes = initState.spikeTimes ∧
    (resetSimulation (run initState ops)).lastSpikeTime = initState.lastSpikeTime :=
  ⟨rfl, rfl, rfl, rfl, rfl, rfl, rfl⟩

/-- C1 counterexample: a reachable state that is currently refractory
(spike at time 0, current time 1, so `time - lastSpikeTime = 1 < 5`) on
which the custom-magnitude action still applies the stimulus and
changes the state: `handleCustomSpikeInput` has no refractory guard. -/
theorem C1_counterexample :
    (run initState [Op.customStimulate 1, Op.tick]).lastSpikeTime = some 0 ∧
    freshIsRefractory (run initState [Op.customStimulate 1, Op.tick]).time
      (run initState [Op.customStimulate 1, Op.tick]).lastSpikeTime = true ∧
    handleCustomSpikeInput 5 (run initState [Op.customStimulate 1, Op.tick]) ≠
      run initState [Op.customStimulate 1, Op.tick] := by
  refine ⟨?_, ?_, ?_⟩ <;>
    norm_num [run, step, handleCustomSpikeInput, simulationLoop, initState, pushSpikeTime,
      sliceLast, freshIsRefractory, MAX_SPIKES_DISPLAY, MAX_DATA_POINTS, timeStep,
      refractoryPeriod, SimState.mk.injEq]

/-- C1 (amended): the refractory drop applies only to the primary
send-spike action: whenever the memoised refractory flag is set,
`sendSpike` leaves the entire state unchanged, and after any running
tick the memoised flag agrees with the fresh refractory predicate
`time - lastSpikeTime < refractoryPeriod` at the new time.  The
custom-magnitude action is not gated on refractoriness at all — see the
counterexample. -/
theorem C1_sendSpike_refractory_noop :
    (∀ s : SimState, s.isRefractory = true → sendSpike s = s) ∧
    (∀ s : SimState, s.isRunning = true →
      (simulationLoop s).isRefractory =
        freshIsRefractory (s.time + timeStep) s.lastSpikeTime) := by
  constructor
  · intro s hs
    simp [sendSpike, hs]
  · intro s hs
    simp [simulationLoop, hs]

/-- C1 witness: the amended theorem applied at a concrete refractory
state and at the initial state. -/
theorem C1_sendSpike_refractory_noop_witness :
    sendSpike (run initState [Op.customStimulate 1, Op.tick]) =
      run initState [Op.customStimulate 1, Op.tick] ∧
    (simulationLoop initState).isRefractory =
      freshIsRefractory (initState.time + timeStep) initState.lastSpikeTime := by
  constructor
  · exact C1_sendSpike_refractory_noop.1 _ (by
      norm_num [run, step, handleCustomSpikeInput, simulationLoop, initState, pushSpikeTime,
        sliceLast, freshIsRefractory, MAX_SPIKES_DISPLAY, MAX_DATA_POINTS, timeStep,
        refractoryPeriod])
  · exact C1_sendSpike_refractory_noop.2 initState rfl

/-- C2 counterexample: with potential 1/2 and threshold 1 before a tick,
the sample appended by that tick records potential 1/2 — the value
committed before the tick, read through the stale ref — while the
post-decay potential of that same tick is 49/100. -/
theorem C2_counterexample :
    (run initState [Op.customStimulate (1/2), Op.tick]).dataPoints = [⟨1, 1/2, 1⟩] ∧
    (run initState [Op.customStimulate (1/2), Op.tick]).membranePotential = 49/100 ∧
    (1 : ℚ)/2 ≠ 49/100 := by
  refine ⟨?_, ?_, by norm_num⟩ <;>
    norm_num [run, step, handleCustomSpikeInput, simulationLoop, initState, pushSpikeTime,
      sliceLast, freshIsRefractory, MAX_SPIKES_DISPLAY, MAX_DATA_POINTS, timeStep,
      refractoryPeriod, Sample.mk.injEq]

/-- C2 (amended): the sample a running tick appends carries the
incremented time of that tick but the pre-tick potential and threshold
(the values committed before the tick, read through the stale refs),
while the state's own potential receives the post-decay value; the
oldest entry is evicted when the buffer would exceed
`MAX_DATA_POINTS`. -/
theorem C2_sample_pre_tick (s : SimState) (h : s.isRunning = true) :
    (simulationLoop s).dataPoints =
      sliceLast (s.dataPoints ++ [⟨s.time + timeStep, s.membranePotential, s.threshold⟩])
        MAX_DATA_POINTS ∧
    (simulationLoop s).membranePotential =
      max 0 (s.membranePotential - s.decayRate * (timeStep : ℚ)) ∧
    (simulationLoop s).time = s.time + timeStep := by
  refine ⟨?_, ?_, ?_⟩ <;> simp [simulationLoop, h]

/-- C2 witness: the amended theorem applied at the initial state. -/
theorem C2_sample_pre_tick_witness :
    (simulationLoop initState).dataPoints =
      sliceLast (initState.dataPoints ++
        [⟨initState.time + timeStep, initState.membranePotential, initState.threshold⟩])
        MAX_DATA_POINTS :=
  (C2_sample_pre_tick initState rfl).1

theorem nonnegOp_step (op : Op) (s : SimState) (hop : nonnegOp op = true)
    (hp : 0 ≤ s.membranePotential) (hm : 0 ≤ s.spikeMagnitude) :
    0 ≤ (step op s).membranePotential ∧ 0 ≤ (step op s).spikeMagnitude := by
  cases op with
  | tick =>
      simp only [step, simulationLoop]
      split_ifs
      all_goals first
        | exact ⟨hp, hm⟩
        | exact ⟨le_max_left 0 _, hm⟩
  | sendSpike =>
      simp only [step, sendSpike]
      split_ifs
      all_goals first
        | exact ⟨hp, hm⟩
        | exact ⟨le_refl 0, hm⟩
        | exact ⟨add_nonneg hp hm, hm⟩
  | customStimulate m =>
      simp only [nonnegOp] at hop
      have hm0 : 0 ≤ m := of_decide_eq_true hop
      simp only [step, handleCustomSpikeInput]
      split_ifs
      · exact ⟨le_refl 0, hm⟩
      · exact ⟨add_nonneg hp hm0, hm⟩
  | reset => exact ⟨le_refl 0, hm⟩
  | setDecayRate v => exact ⟨hp, hm⟩
  | setThresholdDecayRate v => exact ⟨hp, hm⟩
  | setMinThreshold v => exact ⟨hp, hm⟩
  | setSpikeMagnitude v =>
      simp only [nonnegOp] at hop
      exact ⟨hp, of_decide_eq_true hop⟩
  | setRunning b => exact ⟨hp, hm⟩

theorem nonneg_run (ops : List Op) :
    ∀ s : SimState, ops.all nonnegOp = true → 0 ≤ s.membranePotential →
      0 ≤ s.spikeMagnitude →
      0 ≤ (run s ops).membranePotential ∧ 0 ≤ (run s ops).spikeMagnitude := by
  induction ops with
  | nil => intro s _ hp hm; exact ⟨hp, hm⟩
  | cons op ops ih =>
      intro s hall hp hm
      rw [List.all_cons, Bool.and_eq_true] at hall
      rw [run_cons]
      have h := nonnegOp_step op s hall.1 hp hm
      exact ih _ hall.2 h.1 h.2

/-- C3 (amended): along every sequence of calls whose custom stimulus
magnitudes and spike-magnitude settings are nonnegative, the membrane
potential stays nonnegative after every call.  (For a negative
magnitude the claim fails — the stimulate path has no clamp at 0 — see
the counterexample.) -/
theorem C3_potential_nonneg (ops : List Op) (h : ops.all nonnegOp = true) :
    0 ≤ (run initState ops).membranePotential :=
  (nonneg_run ops initState h (le_refl 0) (by norm_num [initState])).1

/-- C3 witness: the amended theorem applied to a concrete nonnegative
call sequence. -/
theorem C3_potential_nonneg_witness :
    ([Op.customStimulate 1, Op.tick].all nonnegOp = true) ∧
    0 ≤ (run initState [Op.customStimulate 1, Op.tick]).membranePotential :=
  ⟨by norm_num [nonnegOp], C3_potential_nonneg _ (by norm_num [nonnegOp])⟩

/-- C3 counterexample: a single `stimulate(-1)` from the initial state
drives the potential to `-1 < 0`: the non-spike branch stores
`potential + magnitude` without clamping at 0. -/
theorem C3_counterexample :
    (run initState [Op.customStimulate (-1)]).membranePotential = -1 ∧
    ¬ (0 ≤ (run initState [Op.customStimulate (-1)]).membranePotential) := by
  refine ⟨?_, ?_⟩ <;>
    norm_num [run, step, handleCustomSpikeInput, initState]

/-- C4: on a non-refractory state, a single stimulate call — through
either handler — has exactly one of two mutually exclusive outcomes,
decided by `newPotential = potential + magnitude` against the
threshold: a spike (lastSpikeTime becomes the current time, threshold
grows by exactly 0.1, spikeCount by exactly 1, the current time is
pushed onto spikeTimes, potential resets to 0) or pure accumulation
(potential becomes newPotential, everything else untouched). -/
theorem C4_stimulate_dichotomy (s : SimState) (m : ℚ) (h : s.isRefractory = false) :
    ((s.membranePotential + m ≥ s.threshold →
        (handleCustomSpikeInput m s).lastSpikeTime = some s.time ∧
        (handleCustomSpikeInput m s).threshold = s.threshold + 1/10 ∧
        (handleCustomSpikeInput m s).spikeCount = s.spikeCount + 1 ∧
        (handleCustomSpikeInput m s).spikeTimes = pushSpikeTime s.spikeTimes s.time ∧
        (handleCustomSpikeInput m s).membranePotential = 0) ∧
      (¬ s.membranePotential + m ≥ s.threshold →
        (handleCustomSpikeInput m s).membranePotential = s.membranePotential + m ∧
        (handleCustomSpikeInput m s).threshold = s.threshold ∧
        (handleCustomSpikeInput m s).spikeCount = s.spikeCount ∧
        (handleCustomSpikeInput m s).spikeTimes = s.spikeTimes ∧
        (handleCustomSpikeInput m s).lastSpikeTime = s.lastSpikeTime)) ∧
    ((s.membranePotential + s.spikeMagnitude ≥ s.threshold →
        (sendSpike s).lastSpikeTime = some s.time ∧
        (sendSpike s).threshold = s.threshold + 1/10 ∧
        (sendSpike s).spikeCount = s.spikeCount + 1 ∧
        (sendSpike s).spikeTimes = pushSpikeTime s.spikeTimes s.time ∧
        (sendSpike s).membranePotential = 0) ∧
      (¬ s.membranePotential + s.spikeMagnitude ≥ s.threshold →
        (sendSpike s).membranePotential = s.membranePotential + s.spikeMagnitude ∧
        (sendSpike s).threshold = s.threshold ∧
        (sendSpike s).spikeCount = s.spikeCount ∧
        (sendSpike s).spikeTimes = s.spikeTimes ∧
        (sendSpike s).lastSpikeTime = s.lastSpikeTime)) := by
  refine ⟨⟨?_, ?_⟩, ⟨?_, ?_⟩⟩ <;> intro hc <;>
    simp [handleCustomSpikeInput, sendSpike, h, hc]

/-- C4 witness: the dichotomy applied at the initial state — a magnitude
of 1 fires a spike, the default magnitude 1/2 only accumulates. -/
theorem C4_stimulate_dichotomy_witness :
    (handleCustomSpikeInput 1 initState).spikeCount = initState.spikeCount + 1 ∧
    (sendSpike initState).membranePotential =
      initState.membranePotential + initState.spikeMagnitude := by
  constructor
  · exact ((C4_stimulate_dichotomy initState 1 rfl).1.1 (by norm_num [initState])).2.2.1
  · exact ((C4_stimulate_dichotomy initState 0 rfl).2.2 (by norm_num [initState])).1

theorem floorSafe_step (op : Op) (s : SimState) (hop : floorSafeOp op s = true)
    (h : s.minThreshold ≤ s.threshold) :
    (step op s).minThreshold ≤ (step op s).threshold := by
  cases op with
  | tick =>
      simp only [step, simulationLoop]
      split_ifs
      all_goals first
        | exact h
        | exact le_max_left _ _
  | sendSpike =>
      simp only [step, sendSpike]
      split_ifs
      all_goals first
        | exact h
        | exact le_trans h (le_add_of_nonneg_right (by norm_num))
  | customStimulate m =>
      simp only [step, handleCustomSpikeInput]
      split_ifs
      · exact le_trans h (le_add_of_nonneg_right (by norm_num))
      · exact h
  | reset => exact absurd hop (by simp [floorSafeOp])
  | setMinThreshold v =>
      simp only [floorSafeOp] at hop
      exact le_trans (of_decide_eq_true hop) h
  | setDecayRate v => exact h
  | setThresholdDecayRate v => exact h
  | setSpikeMagnitude v => exact h
  | setRunning b => exact h

theorem floorSafe_run (ops : List Op) :
    ∀ s : SimState, FloorSafe s ops = true → s.minThreshold ≤ s.threshold →
      (run s ops).minThreshold ≤ (run s ops).threshold := by
  induction ops with
  | nil => intro s _ h; exact h
  | cons op ops ih =>
      intro s hall h
      simp only [FloorSafe, Bool.and_eq_true] at hall
      rw [run_cons]
      exact ih _ hall.2 (floorSafe_step op s hall.1 h)

/-- C5 (amended): the floor invariant `threshold ≥ minThreshold` is
preserved, from any state satisfying it, by every tick, stimulate,
pause/resume and rate/magnitude setter call, and by every downward
(non-raising) `minThreshold` change — so it holds after every call of
any such sequence; and after a running, non-refractory tick the
invariant holds against the current `minThreshold` whatever held before
(the decay step re-clamps).  It does not hold after every call once
`minThreshold` is raised above the threshold mid-session — see the
counterexample. -/
theorem C5_threshold_floor :
    (∀ (s : SimState) (ops : List Op), FloorSafe s ops = true →
      s.minThreshold ≤ s.threshold →
      (run s ops).minThreshold ≤ (run s ops).threshold) ∧
    (∀ s : SimState, s.isRunning = true →
      freshIsRefractory (s.time + timeStep) s.lastSpikeTime = false →
      (simulationLoop s).minThreshold ≤ (simulationLoop s).threshold) := by
  constructor
  · intro s ops hall h
    exact floorSafe_run ops s hall h
  · intro s hr hrf
    simp [simulationLoop, hr, hrf]

/-- C5 witness: the amended theorem applied at the initial state, along
a sequence containing a downward `minThreshold` change, a stimulus and
a tick. -/
theorem C5_threshold_floor_witness :
    (run initState [Op.setMinThreshold (1/2), Op.customStimulate (1/4), Op.tick]).minThreshold ≤
      (run initState [Op.setMinThreshold (1/2), Op.customStimulate (1/4), Op.tick]).threshold ∧
    (simulationLoop initState).minThreshold ≤ (simulationLoop initState).threshold := by
  constructor
  · exact C5_threshold_floor.1 initState [Op.setMinThreshold (1/2), Op.customStimulate (1/4), Op.tick]
      (by norm_num [FloorSafe, floorSafeOp, step, handleCustomSpikeInput, simulationLoop,
        initState, pushSpikeTime, sliceLast, freshIsRefractory, MAX_SPIKES_DISPLAY,
        MAX_DATA_POINTS, timeStep, refractoryPeriod])
      (by norm_num [initState])
  · exact C5_threshold_floor.2 initState rfl rfl

/-- C5 counterexample: raise `minThreshold` to 2 mid-session, then issue
a small stimulus: the call leaves `threshold = 1 < 2 = minThreshold`,
so the floor does not hold after every call when the floor is raised. -/
theorem C5_counterexample :
    (run initState [Op.setMinThreshold 2, Op.customStimulate (1/10)]).threshold <
      (run initState [Op.setMinThreshold 2, Op.customStimulate (1/10)]).minThreshold := by
  norm_num [run, step, handleCustomSpikeInput, initState]

/-- C9: a running tick first increments time by `timeStep = 1`, then
evaluates the refractory condition against the new time, relaxing the
threshold to `max(minThreshold, threshold - thresholdDecayRate)`
exactly when not refractory and leaving it unchanged when refractory;
and, concretely, from the spec's scenario state (spike at time 0,
threshold 1.1), after five ticks `time = 5`, `5 - 0 < 5` is false, and
`threshold = 1.09`. -/
theorem C9_tick_order :
    (∀ s : SimState, s.isRunning = true →
      (simulationLoop s).time = s.time + timeStep ∧
      (freshIsRefractory (s.time + timeStep) s.lastSpikeTime = true →
        (simulationLoop s).threshold = s.threshold) ∧
      (freshIsRefractory (s.time + timeStep) s.lastSpikeTime = false →
        (simulationLoop s).threshold =
          max s.minThreshold (s.threshold - s.thresholdDecayRate))) ∧
    ((run initState [Op.sendSpike, Op.sendSpike]).lastSpikeTime = some 0 ∧
      (run initState [Op.sendSpike, Op.sendSpike]).threshold = 11/10 ∧
      (run initState [Op.sendSpike, Op.sendSpike]).spikeCount = 1 ∧
      (run initState [Op.sendSpike, Op.sendSpike]).membranePotential = 0 ∧
      (run initState [Op.sendSpike, Op.sendSpike, Op.tick, Op.tick, Op.tick, Op.tick,
        Op.tick]).time = 5 ∧
      freshIsRefractory 5 (some 0) = false ∧
      (run initState [Op.sendSpike, Op.sendSpike, Op.tick, Op.tick, Op.tick, Op.tick,
        Op.tick]).threshold = 109/100) := by
  constructor
  · intro s hr
    refine ⟨?_, ?_, ?_⟩
    · simp [simulationLoop, hr]
    · intro hrf
      simp [simulationLoop, hr, hrf]
    · intro hrf
      simp [simulationLoop, hr, hrf]
  · refine ⟨?_, ?_, ?_, ?_, ?_, ?_, ?_⟩ <;>
      norm_num [run, step, sendSpike, simulationLoop, initState, pushSpikeTime,
        sliceLast, freshIsRefractory, MAX_SPIKES_DISPLAY, MAX_DATA_POINTS, timeStep,
        refractoryPeriod]

/-- C9 witness: the tick characterization applied at the initial state
(not refractory, so the decay branch is taken). -/
theorem C9_tick_order_witness :
    (simulationLoop initState).time = initState.time + timeStep ∧
    (simulationLoop initState).threshold =
      max initState.minThreshold (initState.threshold - initState.thresholdDecayRate) :=
  ⟨(C9_tick_order.1 initState rfl).1, (C9_tick_order.1 initState rfl).2.2 rfl⟩

/-- C10: `resetSimulation` leaves the four configuration parameters
(decayRate, thresholdDecayRate, minThreshold, spikeMagnitude) and the
running flag unchanged. -/
theorem C10_reset_preserves_config (s : SimState) :
    (resetSimulation s).decayRate = s.decayRate ∧
    (resetSimulation s).thresholdDecayRate = s.thresholdDecayRate ∧
    (resetSimulation s).minThreshold = s.minThreshold ∧
    (resetSimulation s).spikeMagnitude = s.spikeMagnitude ∧
    (resetSimulation s).isRunning = s.isRunning :=
  ⟨rfl, rfl, rfl, rfl, rfl⟩

end NeuronSim
